import Mathlib

/-!
Shallow embedding of the JAM Mission Django application core
(`backend/core/models.py`, `backend/core/views.py`): the session cart,
checkout aggregation, ticket availability guard, slug assignment and
newsletter signup, together with proofs checking the specification's
claims against these definitions.
-/

namespace JamMission

/-! ### Decimal rendering of naturals

Models how Python renders an `int` inside an f-string (used by
`_unique_slugify`'s `f"{slug_base}-{counter}"`).  The renderer is written
with explicit fuel so that it is structurally recursive and reduces in the
kernel; `n` itself is always enough fuel since the argument shrinks by a
factor of ten every step. -/

def natReprCore : Nat → Nat → List Char → List Char
  | 0, _, acc => acc
  | fuel + 1, n, acc =>
      if n = 0 then acc
      else natReprCore fuel (n / 10) (Nat.digitChar (n % 10) :: acc)

def natRepr (n : Nat) : String :=
  if n = 0 then "0" else String.mk (natReprCore n n [])

/-! ### Python `int(string)` parsing

Models `int(s)` for a decimal string: surrounding ASCII whitespace is
ignored, an optional sign is allowed, and at least one digit must be
present; otherwise Python raises `ValueError`, modelled as `none`. -/

def isPySpace (c : Char) : Bool :=
  c = ' ' || c = '\t' || c = '\n' || c = '\r' || c = '\x0b' || c = '\x0c'

def parseDigits (cs : List Char) : Option Nat :=
  if cs = [] then none
  else if cs.all Char.isDigit then
    some (cs.foldl (fun n c => 10 * n + (c.toNat - '0'.toNat)) 0)
  else none

def pyInt (s : String) : Option Int :=
  let cs := ((s.toList.dropWhile isPySpace).reverse.dropWhile isPySpace).reverse
  match cs with
  | '-' :: rest => (parseDigits rest).map (fun n => -(n : Int))
  | '+' :: rest => (parseDigits rest).map (fun n => (n : Int))
  | rest => (parseDigits rest).map (fun n => (n : Int))

/-! ### Catalog data model (`core/models.py`) -/

/-- `Product`: slug-identified catalog item with a price and a stock flag.
Prices are decimals with two places in the source; they are modelled as
integer cents. -/
structure Product where
  pk : Nat
  name : String
  slug : String
  price : Int
  in_stock : Bool
deriving DecidableEq, Repr

/-- `Event`: bookable catalog item with a ticket capacity. -/
structure Event where
  pk : Nat
  title : String
  slug : String
  price : Int
  capacity : Nat
  is_active : Bool
deriving DecidableEq, Repr

inductive BookingStatus where
  | pending | confirmed | rejected | paid | cancelled
deriving DecidableEq, Repr

/-- `Booking`: a ticket/stay request, optionally tied to an event by pk
(`Booking.event` is a nullable foreign key). -/
structure Booking where
  name : String
  email : String
  date : String
  tickets : Nat
  event : Option Nat
  notes : String
  status : BookingStatus
deriving DecidableEq, Repr

inductive OrderStatus where
  | pending | confirmed | paid | shipped | cancelled
deriving DecidableEq, Repr

/-- `Order`: one purchased line for a product. -/
structure Order where
  product : Product
  name : String
  email : String
  quantity : Int
  notes : String
  status : OrderStatus
deriving DecidableEq, Repr

/-- `Event.tickets_sold`: sum of `tickets` over this event's bookings whose
status is `confirmed` or `paid`. -/
def tickets_sold (bookings : List Booking) (e : Event) : Nat :=
  ((bookings.filter (fun b =>
      b.event = some e.pk &&
        (b.status = BookingStatus.confirmed || b.status = BookingStatus.paid))).map
    (fun b => b.tickets)).sum

/-- `Event.available_tickets`: `max(self.capacity - self.tickets_sold, 0)`,
computed over Python's unbounded signed integers. -/
def available_tickets (bookings : List Booking) (e : Event) : Int :=
  max ((e.capacity : Int) - (tickets_sold bookings e : Int)) 0

/-! ### Booking views (`core/views.py`)

Form validation itself (Django `ModelForm.is_valid`) is treated as an
external boundary: a view receives the cleaned data of an already valid
form, matching the `form.is_valid()` branch the claims speak about. -/

/-- Cleaned data of a valid `BookingForm`
(fields `name`, `email`, `date`, `tickets`, `notes`). -/
structure BookingFormData where
  name : String
  email : String
  date : String
  tickets : Nat
  notes : String
deriving DecidableEq, Repr

/-- Outcome of a booking POST: the bookings table afterwards, the error
attached to the `tickets` field if any (`form.add_error`), and the
`success` flag rendered to the visitor. -/
structure BookingResult where
  bookings : List Booking
  ticketsError : Option String
  success : Bool
deriving DecidableEq, Repr

/-- The `Booking` row built by `form.save(commit=False)` plus an optional
event reference; `status` defaults to `pending`. -/
def mkBooking (f : BookingFormData) (ev : Option Nat) : Booking :=
  { name := f.name, email := f.email, date := f.date, tickets := f.tickets,
    event := ev, notes := f.notes, status := BookingStatus.pending }

/-- `event_detail` POST branch: the booking is attached to the event, then
the guard compares the requested tickets with `available_tickets`; on
excess the form gets a `tickets` error and nothing is saved, otherwise the
booking row is inserted. -/
def event_detail_post (bookings : List Booking) (e : Event) (f : BookingFormData) :
    BookingResult :=
  if (f.tickets : Int) > available_tickets bookings e then
    { bookings := bookings,
      ticketsError :=
        some ("Only " ++ toString (available_tickets bookings e) ++ " tickets are available."),
      success := false }
  else
    { bookings := bookings ++ [mkBooking f (some e.pk)],
      ticketsError := none, success := true }

/-- `booking` POST branch (general booking form): an event is looked up when
a non-empty `event_slug` was posted (`Event.objects.filter(slug=...).first()`)
and attached, and the booking is saved unconditionally — this path has no
availability check. -/
def booking_post (events : List Event) (bookings : List Booking)
    (f : BookingFormData) (event_slug : Option String) : BookingResult :=
  let ev : Option Nat :=
    match event_slug with
    | none => none
    | some s => if s = "" then none else (events.find? (fun e => e.slug = s)).map (fun e => e.pk)
  { bookings := bookings ++ [mkBooking f ev], ticketsError := none, success := true }

/-! ### Session cart (`cart_add`, `cart_view`)

The session cart is a Python dict from product slug to quantity; it is
modelled as an insertion-ordered association list, with dict update
semantics (overwrite in place, append when the key is new). -/

abbrev Cart := List (String × Int)

/-- `cart.get(slug, 0)`. -/
def cartGet (cart : Cart) (slug : String) : Int :=
  match cart.find? (fun p => p.1 = slug) with
  | some p => p.2
  | none => 0

/-- `cart[slug] = v` with dict semantics: update in place when the key is
present, append otherwise. -/
def cartSet (cart : Cart) (slug : String) (v : Int) : Cart :=
  if cart.any (fun p => p.1 = slug) then
    cart.map (fun p => if p.1 = slug then (p.1, v) else p)
  else cart ++ [(slug, v)]

/-- `get_object_or_404(Product, slug=slug)`: slug lookup with no stock
filter. -/
def findProduct (catalog : List Product) (slug : String) : Option Product :=
  catalog.find? (fun p => p.slug = slug)

/-- Quantity handling in `cart_add`: `int(request.POST.get('quantity', 1))`
guarded by `except (TypeError, ValueError): qty = 1`. A missing field or an
unparsable string falls back to 1; any parsed integer is used as is. -/
def parsedQty (qparam : Option String) : Int :=
  match qparam with
  | none => 1
  | some s => (pyInt s).getD 1

/-- `cart_add` view: 404 (`none`) when no product has the slug, otherwise
`cart[slug] = cart.get(slug, 0) + qty` and the session is updated. -/
def cart_add (catalog : List Product) (cart : Cart) (slug : String)
    (qparam : Option String) : Option Cart :=
  match findProduct catalog slug with
  | none => none
  | some _ => some (cartSet cart slug (cartGet cart slug + parsedQty qparam))

/-- `Product.objects.filter(slug=slug, in_stock=True).first()`. -/
def findInStock (catalog : List Product) (slug : String) : Option Product :=
  catalog.find? (fun p => p.slug = slug && p.in_stock)

/-- One line of the resolved cart view: product, quantity and
`subtotal = product.price * qty`. -/
structure CartItem where
  product : Product
  quantity : Int
  subtotal : Int
deriving DecidableEq, Repr

/-- The item-collection loop of `cart_view`: each cart entry whose slug
resolves to an in-stock product contributes an item; the rest are skipped. -/
def resolveItems (catalog : List Product) : Cart → List CartItem
  | [] => []
  | (s, q) :: rest =>
    match findInStock catalog s with
    | some p => { product := p, quantity := q, subtotal := p.price * q } :: resolveItems catalog rest
    | none => resolveItems catalog rest

/-- The `total` accumulator of the same loop. -/
def cartTotal (catalog : List Product) : Cart → Int
  | [] => 0
  | (s, q) :: rest =>
    match findInStock catalog s with
    | some p => p.price * q + cartTotal catalog rest
    | none => cartTotal catalog rest

/-- Cleaned data of a valid `OrderForm` as used by `cart_view`
(`name`, `email`, `notes`; the form's own quantity field is unused there). -/
structure OrderFormData where
  name : String
  email : String
  notes : String
deriving DecidableEq, Repr

/-- Outcome of one `cart_view` request: orders created, session cart
afterwards, items/total as rendered, and the success flag. -/
structure CartViewResult where
  orders : List Order
  cart : Cart
  items : List CartItem
  total : Int
  success : Bool
deriving DecidableEq, Repr

/-- `cart_view`: resolve the session cart; on POST with a non-empty item
list and a valid `OrderForm` (`some` cleaned data), create one `Order` per
item sharing the buyer's name/email/notes, then clear the session cart and
reset the rendered items; otherwise create nothing and leave the cart as it
was. -/
def cart_view (catalog : List Product) (cart : Cart) (isPost : Bool)
    (form : Option OrderFormData) : CartViewResult :=
  let items := resolveItems catalog cart
  let total := cartTotal catalog cart
  if isPost then
    match items, form with
    | [], _ => { orders := [], cart := cart, items := items, total := total, success := false }
    | _, none => { orders := [], cart := cart, items := items, total := total, success := false }
    | i :: is, some f =>
      { orders := (i :: is).map (fun it =>
          { product := it.product, name := f.name, email := f.email,
            quantity := it.quantity, notes := f.notes, status := OrderStatus.pending }),
        cart := [], items := [], total := 0, success := true }
  else
    { orders := [], cart := cart, items := items, total := total, success := false }

/-! ### Newsletter signup (`newsletter_subscribe`) -/

/-- `newsletter_subscribe` POST branch. `NewsletterForm` is a `ModelForm`
over `NewsletterSubscriber`, whose `email` field is declared
`EmailField(unique=True)`; `BaseModelForm._post_clean` therefore runs
`validate_unique()`, so `form.is_valid()` is `False` both when the field
itself is missing or malformed (`none` here) and when a subscriber row
with the posted email already exists — in those cases the view body is
skipped and `success` stays `False`. Only for a fresh, well-formed email
does the view reach `get_or_create(email=email)` (which re-checks
existence before inserting) and set `success = True`. -/
def newsletter_subscribe (subscribers : List String) (form : Option String) :
    List String × Bool :=
  match form with
  | none => (subscribers, false)
  | some email =>
    if subscribers.contains email then (subscribers, false)
    else ((if subscribers.contains email then subscribers else subscribers ++ [email]), true)

/-! ### Slug assignment (`_unique_slugify` and the pre_save signals)

`django.utils.text.slugify` for ASCII input: lowercase, drop every
character that is not a word character, whitespace or hyphen, collapse
runs of hyphens/whitespace into one hyphen, and strip leading/trailing
hyphens and underscores. -/

/-- Regex class `\w` over ASCII: letters, digits, underscore. -/
def isWordChar (c : Char) : Bool :=
  c.isAlphanum || c = '_'

/-- Regex class `\s` over ASCII. -/
def isSpaceChar (c : Char) : Bool :=
  c = ' ' || c = '\t' || c = '\n' || c = '\r' || c = '\x0b' || c = '\x0c'

/-- Characters collapsed by the `[-\s]+` pass. -/
def isDashOrSpace (c : Char) : Bool :=
  c = '-' || isSpaceChar c

/-- Replace every maximal `[-\s]+` run with a single '-'; the flag records
whether the previous character belonged to such a run. -/
def collapseDashes : Bool → List Char → List Char
  | _, [] => []
  | inRun, c :: rest =>
    if isDashOrSpace c then
      if inRun then collapseDashes true rest
      else '-' :: collapseDashes true rest
    else c :: collapseDashes false rest

/-- `.strip('-_')`. -/
def stripDashUnd (cs : List Char) : List Char :=
  (((cs.dropWhile (fun c => c = '-' || c = '_')).reverse.dropWhile
      (fun c => c = '-' || c = '_'))).reverse

/-- `django.utils.text.slugify` (ASCII fragment). -/
def slugify (s : String) : String :=
  String.mk (stripDashUnd (collapseDashes false
    ((s.toList.map Char.toLower).filter
      (fun c => isWordChar c || isSpaceChar c || c = '-'))))

/-- A persisted row as seen by the slug-uniqueness query: its primary key
and its slug value. -/
structure SlugRecord where
  pk : Nat
  slug : String
deriving DecidableEq, Repr

/-- `Model.objects.filter(slug=slug).exclude(pk=pk).exists()`: the slug is
held by a record other than the instance itself. For an unsaved instance
`pk` is `none` and no row is excluded. -/
def slugTaken (table : List SlugRecord) (pk : Option Nat) (slug : String) : Bool :=
  table.any (fun r => r.slug = slug && some r.pk ≠ pk)

/-- The `i`-th candidate tried by the while loop: the base slug itself,
then `base-1`, `base-2`, … -/
def nthSlug (base : String) (i : Nat) : String :=
  if i = 0 then base else base ++ "-" ++ natRepr i

/-- The while loop of `_unique_slugify`, searching upward from candidate
`i` for the first one not taken. The fuel only bounds the recursion; since
the `table.length + 1` candidates tried first are pairwise distinct strings
and at most `table.length` slugs are taken, fuel `table.length + 1` is
never exhausted (proved below as `firstFreeFrom_spec` + `exists_free_slug`). -/
def firstFreeFrom (table : List SlugRecord) (pk : Option Nat) (base : String) :
    Nat → Nat → Nat
  | 0, i => i
  | fuel + 1, i =>
    if slugTaken table pk (nthSlug base i) then firstFreeFrom table pk base fuel (i + 1)
    else i

/-- `_unique_slugify(instance, value)`: slugify the value and take the
first candidate slug not held by a different record. -/
def uniqueSlugify (table : List SlugRecord) (pk : Option Nat) (value : String) : String :=
  nthSlug (slugify value) (firstFreeFrom table pk (slugify value) (table.length + 1) 0)

/-- `set_product_slug` pre_save receiver: only a blank slug is replaced;
`table` is the product table as queried by `_unique_slugify`, `pk` the
instance's primary key (`none` before the first save). -/
def set_product_slug (table : List SlugRecord) (pk : Option Nat)
    (slug name : String) : String :=
  if slug = "" then uniqueSlugify table pk name else slug

/-- `set_event_slug` pre_save receiver (derives from the title). -/
def set_event_slug (table : List SlugRecord) (pk : Option Nat)
    (slug title : String) : String :=
  if slug = "" then uniqueSlugify table pk title else slug

/-- `set_service_slug` pre_save receiver. -/
def set_service_slug (table : List SlugRecord) (pk : Option Nat)
    (slug name : String) : String :=
  if slug = "" then uniqueSlugify table pk name else slug

/-! ### Concrete fixtures used by witnesses and counterexamples -/

def eggsProduct : Product :=
  { pk := 1, name := "Fresh Eggs", slug := "fresh-eggs", price := 500, in_stock := true }

def chicksProduct : Product :=
  { pk := 2, name := "Chicks", slug := "chicks", price := 300, in_stock := false }

def plantProduct : Product :=
  { pk := 3, name := "Tomato Plant", slug := "tomato-plant", price := 200, in_stock := true }

def exCatalog : List Product := [eggsProduct, chicksProduct, plantProduct]

def harvestFest : Event :=
  { pk := 1, title := "Harvest Fest", slug := "harvest-fest", price := 1000,
    capacity := 10, is_active := true }

def confirmedBooking8 : Booking :=
  { name := "Alex", email := "alex@example.com", date := "2026-10-20", tickets := 8,
    event := some 1, notes := "", status := BookingStatus.confirmed }

def janeForm3 : BookingFormData :=
  { name := "Jane", email := "jane@x.com", date := "2026-10-20", tickets := 3, notes := "" }

def janeBuyer : OrderFormData :=
  { name := "Jane", email := "jane@x.com", notes := "" }

/-! ## Lemmas about decimal rendering -/

theorem natReprCore_append (fuel : Nat) :
    ∀ n acc, natReprCore fuel n acc = natReprCore fuel n [] ++ acc := by
  induction fuel with
  | zero => intro n acc; simp [natReprCore]
  | succ f ih =>
    intro n acc
    by_cases h : n = 0
    · simp [natReprCore, h]
    · simp only [natReprCore, if_neg h]
      rw [ih (n / 10) (Nat.digitChar (n % 10) :: acc), ih (n / 10) [Nat.digitChar (n % 10)]]
      simp

theorem natReprCore_fuel :
    ∀ f1 f2 n acc, n ≤ f1 → n ≤ f2 → natReprCore f1 n acc = natReprCore f2 n acc := by
  intro f1
  induction f1 with
  | zero =>
    intro f2 n acc h1 _
    have hn : n = 0 := Nat.le_zero.mp h1
    subst hn
    cases f2 <;> simp [natReprCore]
  | succ f ih =>
    intro f2 n acc h1 h2
    by_cases hn : n = 0
    · subst hn
      cases f2 <;> simp [natReprCore]
    · obtain ⟨f2p, rfl⟩ : ∃ k, f2 = k + 1 := ⟨f2 - 1, by omega⟩
      have hdiv : n / 10 < n := Nat.div_lt_self (Nat.pos_of_ne_zero hn) (by norm_num)
      simp only [natReprCore, if_neg hn]
      exact ih f2p (n / 10) _ (by omega) (by omega)

theorem natReprCore_self (n : Nat) (hn : n ≠ 0) :
    natReprCore n n [] =
      natReprCore (n / 10) (n / 10) [] ++ [Nat.digitChar (n % 10)] := by
  have hdiv : n / 10 < n := Nat.div_lt_self (Nat.pos_of_ne_zero hn) (by norm_num)
  have h1 : natReprCore n n [] = natReprCore (n + 1) n [] :=
    natReprCore_fuel n (n + 1) n [] (le_refl n) (Nat.le_succ n)
  rw [h1]
  simp only [natReprCore, if_neg hn]
  rw [natReprCore_append]
  congr 1
  exact natReprCore_fuel n (n / 10) (n / 10) [] (by omega) (le_refl _)

theorem natReprCore_self_ne_nil (n : Nat) (hn : n ≠ 0) : natReprCore n n [] ≠ [] := by
  rw [natReprCore_self n hn]; simp

theorem digitChar_inj_lt10 :
    ∀ a < 10, ∀ b < 10, Nat.digitChar a = Nat.digitChar b → a = b := by decide

theorem natRepr_inj : ∀ m n : Nat, natRepr m = natRepr n → m = n := by
  intro m
  induction m using Nat.strong_induction_on with
  | _ m ih =>
    intro n h
    by_cases hm : m = 0 <;> by_cases hn : n = 0
    · omega
    · exfalso
      subst hm
      have hd := congrArg String.data h
      simp only [natRepr, if_pos rfl, if_neg hn] at hd
      have hd2 : (['0'] : List Char) = natReprCore n n [] := hd
      rw [natReprCore_self n hn] at hd2
      have hlen := congrArg List.length hd2
      simp at hlen
      have hA : natReprCore (n / 10) (n / 10) [] = [] := hlen
      have hzero : n / 10 = 0 := by
        by_contra hc
        exact natReprCore_self_ne_nil (n / 10) hc hA
      rw [hA] at hd2
      simp at hd2
      have hmod : n % 10 = 0 :=
        (digitChar_inj_lt10 (n % 10) (Nat.mod_lt n (by norm_num)) 0 (by norm_num)
          (by rw [← hd2]; rfl)).symm ▸ rfl
      omega
    · exfalso
      subst hn
      have hd := congrArg String.data h.symm
      simp only [natRepr, if_pos rfl, if_neg hm] at hd
      have hd2 : (['0'] : List Char) = natReprCore m m [] := hd
      rw [natReprCore_self m hm] at hd2
      have hlen := congrArg List.length hd2
      simp at hlen
      have hA : natReprCore (m / 10) (m / 10) [] = [] := hlen
      have hzero : m / 10 = 0 := by
        by_contra hc
        exact natReprCore_self_ne_nil (m / 10) hc hA
      rw [hA] at hd2
      simp at hd2
      have hmod : m % 10 = 0 :=
        (digitChar_inj_lt10 (m % 10) (Nat.mod_lt m (by norm_num)) 0 (by norm_num)
          (by rw [← hd2]; rfl)).symm ▸ rfl
      omega
    · have hd := congrArg String.data h
      simp only [natRepr, if_neg hm, if_neg hn] at hd
      have hd2 : natReprCore m m [] = natReprCore n n [] := hd
      rw [natReprCore_self m hm, natReprCore_self n hn] at hd2
      have hrev := congrArg List.reverse hd2
      simp at hrev
      obtain ⟨hdig, hA⟩ := hrev
      have hAeq : natReprCore (m / 10) (m / 10) [] = natReprCore (n / 10) (n / 10) [] := hA
      have hmod : m % 10 = n % 10 :=
        digitChar_inj_lt10 (m % 10) (Nat.mod_lt m (by norm_num))
          (n % 10) (Nat.mod_lt n (by norm_num)) hdig
      by_cases h10 : m / 10 = 0 <;> by_cases h10n : n / 10 = 0
      · have hm10 := Nat.div_add_mod m 10
        have hn10 := Nat.div_add_mod n 10
        omega
      · exfalso
        rw [h10] at hAeq
        simp [natReprCore] at hAeq
        exact natReprCore_self_ne_nil (n / 10) h10n hAeq
      · exfalso
        rw [h10n] at hAeq
        simp [natReprCore] at hAeq
        exact natReprCore_self_ne_nil (m / 10) h10 hAeq
      · have hrepr : natRepr (m / 10) = natRepr (n / 10) := by
          simp only [natRepr, if_neg h10, if_neg h10n]
          exact congrArg String.mk hAeq
        have hdivlt : m / 10 < m := Nat.div_lt_self (Nat.pos_of_ne_zero hm) (by norm_num)
        have hdiv := ih (m / 10) hdivlt (n / 10) hrepr
        have hm10 := Nat.div_add_mod m 10
        have hn10 := Nat.div_add_mod n 10
        omega

/-! ## Lemmas about slug candidates and the uniqueness search -/

theorem data_append (a b : String) : (a ++ b).data = a.data ++ b.data := rfl

theorem natRepr_data_ne_nil (n : Nat) : (natRepr n).data ≠ [] := by
  by_cases hn : n = 0
  · subst hn; decide
  · simp only [natRepr, if_neg hn]
    exact natReprCore_self_ne_nil n hn

theorem nthSlug_inj (base : String) : Function.Injective (nthSlug base) := by
  intro i j h
  by_cases hi : i = 0 <;> by_cases hj : j = 0
  · omega
  · exfalso
    subst hi
    have h2 : base = base ++ "-" ++ natRepr j := by simpa [nthSlug, hj] using h
    have hlen : (base.data).length = ((base ++ "-" ++ natRepr j).data).length := by rw [← h2]
    rw [data_append, data_append, List.length_append, List.length_append] at hlen
    have hdash : ("-" : String).data.length = 1 := rfl
    have hpos : 0 < (natRepr j).data.length :=
      List.length_pos.mpr (natRepr_data_ne_nil j)
    omega
  · exfalso
    subst hj
    have h2 : base = base ++ "-" ++ natRepr i := by simpa [nthSlug, hi] using h.symm
    have hlen : (base.data).length = ((base ++ "-" ++ natRepr i).data).length := by rw [← h2]
    rw [data_append, data_append, List.length_append, List.length_append] at hlen
    have hdash : ("-" : String).data.length = 1 := rfl
    have hpos : 0 < (natRepr i).data.length :=
      List.length_pos.mpr (natRepr_data_ne_nil i)
    omega
  · simp only [nthSlug, if_neg hi, if_neg hj] at h
    have hd := congrArg String.data h
    rw [data_append, data_append] at hd
    have hd2 : (natRepr i).data = (natRepr j).data := List.append_cancel_left hd
    exact natRepr_inj i j (String.ext hd2)

theorem slugTaken_mem (table : List SlugRecord) (pk : Option Nat) (s : String)
    (h : slugTaken table pk s = true) : s ∈ table.map (fun r => r.slug) := by
  simp only [slugTaken, List.any_eq_true, Bool.and_eq_true, decide_eq_true_eq] at h
  obtain ⟨r, hr, hs, _⟩ := h
  exact List.mem_map.mpr ⟨r, hr, hs⟩

theorem exists_free_slug (table : List SlugRecord) (pk : Option Nat) (base : String) :
    ∃ k, k ≤ table.length ∧ slugTaken table pk (nthSlug base k) = false := by
  by_contra hc
  push_neg at hc
  have htaken : ∀ k ≤ table.length, slugTaken table pk (nthSlug base k) = true := by
    intro k hk
    have := hc k hk
    simpa using this
  have hnodup : ((List.range (table.length + 1)).map (nthSlug base)).Nodup :=
    (List.nodup_range _).map (nthSlug_inj base)
  have hsub : ∀ x ∈ (List.range (table.length + 1)).map (nthSlug base),
      x ∈ table.map (fun r => r.slug) := by
    intro x hx
    simp only [List.mem_map, List.mem_range] at hx
    obtain ⟨k, hk, rfl⟩ := hx
    exact slugTaken_mem _ _ _ (htaken k (by omega))
  have h1 : ((List.range (table.length + 1)).map (nthSlug base)).toFinset.card =
      ((List.range (table.length + 1)).map (nthSlug base)).length :=
    List.toFinset_card_of_nodup hnodup
  have h2 : ((List.range (table.length + 1)).map (nthSlug base)).toFinset ⊆
      (table.map (fun r => r.slug)).toFinset := by
    intro x hx
    rw [List.mem_toFinset] at hx ⊢
    exact hsub x hx
  have h3 := Finset.card_le_card h2
  have h4 : (table.map (fun r => r.slug)).toFinset.card ≤ table.length := by
    calc (table.map (fun r => r.slug)).toFinset.card
        ≤ (table.map (fun r => r.slug)).length := (table.map (fun r => r.slug)).toFinset_card_le
      _ = table.length := List.length_map _ _
  have h5 : ((List.range (table.length + 1)).map (nthSlug base)).length = table.length + 1 := by
    simp
  omega

theorem firstFreeFrom_spec (table : List SlugRecord) (pk : Option Nat) (base : String) :
    ∀ fuel i, (∃ k, k < fuel ∧ slugTaken table pk (nthSlug base (i + k)) = false) →
      slugTaken table pk (nthSlug base (firstFreeFrom table pk base fuel i)) = false ∧
      i ≤ firstFreeFrom table pk base fuel i ∧
      ∀ j, i ≤ j → j < firstFreeFrom table pk base fuel i →
        slugTaken table pk (nthSlug base j) = true := by
  intro fuel
  induction fuel with
  | zero =>
    intro i h
    obtain ⟨k, hk, _⟩ := h
    omega
  | succ f ih =>
    intro i h
    by_cases ht : slugTaken table pk (nthSlug base i) = true
    · have hstep : firstFreeFrom table pk base (f + 1) i = firstFreeFrom table pk base f (i + 1) := by
        simp [firstFreeFrom, ht]
      obtain ⟨k, hk, hfree⟩ := h
      have hk0 : k ≠ 0 := by
        intro h0
        subst h0
        rw [Nat.add_zero] at hfree
        rw [hfree] at ht
        exact absurd ht (by decide)
      have hex : ∃ k2, k2 < f ∧ slugTaken table pk (nthSlug base (i + 1 + k2)) = false :=
        ⟨k - 1, by omega, by
          have harith : i + 1 + (k - 1) = i + k := by omega
          rw [harith]; exact hfree⟩
      obtain ⟨hf1, hf2, hf3⟩ := ih (i + 1) hex
      rw [hstep]
      refine ⟨hf1, by omega, ?_⟩
      intro j hj1 hj2
      by_cases hji : j = i
      · subst hji; exact ht
      · exact hf3 j (by omega) hj2
    · have hfalse : slugTaken table pk (nthSlug base i) = false := by
        cases hb : slugTaken table pk (nthSlug base i)
        · rfl
        · exact absurd hb ht
      have hstep : firstFreeFrom table pk base (f + 1) i = i := by
        simp [firstFreeFrom, hfalse]
      rw [hstep]
      exact ⟨hfalse, le_refl i, fun j hj1 hj2 => absurd (lt_of_le_of_lt hj1 hj2) (lt_irrefl i)⟩

/-- Full behaviour of `_unique_slugify`: its result is never held by a
different record, and it is the first candidate in the sequence
`base, base-1, base-2, …` with that property. -/
theorem uniqueSlugify_spec (table : List SlugRecord) (pk : Option Nat) (value : String) :
    slugTaken table pk (uniqueSlugify table pk value) = false ∧
    ∃ i, uniqueSlugify table pk value = nthSlug (slugify value) i ∧
      ∀ j < i, slugTaken table pk (nthSlug (slugify value) j) = true := by
  obtain ⟨k, hk, hfree⟩ := exists_free_slug table pk (slugify value)
  have hex : ∃ k2, k2 < table.length + 1 ∧
      slugTaken table pk (nthSlug (slugify value) (0 + k2)) = false :=
    ⟨k, by omega, by simpa using hfree⟩
  obtain ⟨h1, _, h3⟩ := firstFreeFrom_spec table pk (slugify value) (table.length + 1) 0 hex
  exact ⟨h1, ⟨firstFreeFrom table pk (slugify value) (table.length + 1) 0, rfl,
    fun j hj => h3 j (Nat.zero_le j) hj⟩⟩

/-! ## Character-set lemmas: slugs are URL-safe -/

theorem collapseDashes_chars :
    ∀ (flag : Bool) (cs : List Char), ∀ c ∈ collapseDashes flag cs,
      c = '-' ∨ (c ∈ cs ∧ isDashOrSpace c = false) := by
  intro flag cs
  induction cs generalizing flag with
  | nil => intro c hc; simp [collapseDashes] at hc
  | cons d rest ih =>
    intro c hc
    by_cases hd : isDashOrSpace d = true
    · by_cases hflag : flag = true
      · subst hflag
        simp only [collapseDashes, if_pos hd, if_pos rfl] at hc
        rcases ih true c hc with h | ⟨hmem, hds⟩
        · exact Or.inl h
        · exact Or.inr ⟨List.mem_cons_of_mem d hmem, hds⟩
      · have hflag2 : flag = false := by
          cases flag
          · rfl
          · exact absurd rfl hflag
        subst hflag2
        simp only [collapseDashes, if_pos hd] at hc
        rcases List.mem_cons.mp hc with h | h
        · exact Or.inl h
        · rcases ih true c h with h2 | ⟨hmem, hds⟩
          · exact Or.inl h2
          · exact Or.inr ⟨List.mem_cons_of_mem d hmem, hds⟩
    · have hd2 : isDashOrSpace d = false := by
        cases hb : isDashOrSpace d
        · rfl
        · exact absurd hb hd
      simp only [collapseDashes, hd2, if_neg] at hc
      rcases List.mem_cons.mp hc with h | h
      · subst h; exact Or.inr ⟨List.mem_cons_self c rest, hd2⟩
      · rcases ih false c h with h2 | ⟨hmem, hds⟩
        · exact Or.inl h2
        · exact Or.inr ⟨List.mem_cons_of_mem d hmem, hds⟩

theorem stripDashUnd_subset (cs : List Char) : ∀ c ∈ stripDashUnd cs, c ∈ cs := by
  intro c hc
  simp only [stripDashUnd, List.mem_reverse] at hc
  have h1 := (List.dropWhile_sublist _).subset hc
  rw [List.mem_reverse] at h1
  exact (List.dropWhile_sublist _).subset h1

theorem slugify_chars (s : String) :
    ∀ c ∈ (slugify s).data, isWordChar c = true ∨ c = '-' := by
  intro c hc
  have hc1 : c ∈ stripDashUnd (collapseDashes false
      ((s.toList.map Char.toLower).filter
        (fun c => isWordChar c || isSpaceChar c || c = '-'))) := hc
  have hc2 := stripDashUnd_subset _ c hc1
  rcases collapseDashes_chars false _ c hc2 with h | ⟨hmem, hds⟩
  · exact Or.inr h
  · left
    have hpred := List.of_mem_filter hmem
    simp only [Bool.or_eq_true, decide_eq_true_eq] at hpred
    simp only [isDashOrSpace, Bool.or_eq_false_iff, decide_eq_false_iff_not] at hds
    rcases hpred with (h | h) | h
    · exact h
    · rw [hds.2] at h; exact absurd h (by decide)
    · exact absurd h hds.1

theorem natReprCore_digits :
    ∀ fuel n acc, (∀ c ∈ acc, c.isDigit = true) →
      ∀ c ∈ natReprCore fuel n acc, c.isDigit = true := by
  intro fuel
  induction fuel with
  | zero =>
    intro n acc hacc c hc
    simp only [natReprCore] at hc
    exact hacc c hc
  | succ f ih =>
    intro n acc hacc c hc
    by_cases hn : n = 0
    · simp only [natReprCore, if_pos hn] at hc
      exact hacc c hc
    · simp only [natReprCore, if_neg hn] at hc
      refine ih (n / 10) _ ?_ c hc
      intro d hd
      rcases List.mem_cons.mp hd with h | h
      · subst h
        have hlt : n % 10 < 10 := Nat.mod_lt n (by norm_num)
        have hdig : ∀ d < 10, (Nat.digitChar d).isDigit = true := by decide
        exact hdig _ hlt
      · exact hacc d h

theorem natRepr_digits (n : Nat) : ∀ c ∈ (natRepr n).data, c.isDigit = true := by
  intro c hc
  by_cases hn : n = 0
  · subst hn
    have : c ∈ (['0'] : List Char) := hc
    simp at this
    subst this
    decide
  · simp only [natRepr, if_neg hn] at hc
    exact natReprCore_digits n n [] (by intro d hd; simp at hd) c hc

theorem nthSlug_chars (value : String) (i : Nat) :
    ∀ c ∈ (nthSlug (slugify value) i).data, isWordChar c = true ∨ c = '-' := by
  intro c hc
  by_cases hi : i = 0
  · subst hi
    exact slugify_chars value c (by simpa [nthSlug] using hc)
  · simp only [nthSlug, if_neg hi, data_append] at hc
    rcases List.mem_append.mp hc with h | h
    · rcases List.mem_append.mp h with h1 | h1
      · exact slugify_chars value c h1
      · have : c ∈ (['-'] : List Char) := h1
        simp at this
        exact Or.inr this
    · have hdig := natRepr_digits i c h
      left
      simp only [isWordChar, Char.isAlphanum, hdig, Bool.or_true, Bool.true_or]

/-! ## Lemmas about the session cart -/

theorem cartGet_map_update (s : String) (v : Int) :
    ∀ cart : Cart, cart.any (fun p => p.1 = s) = true →
      cartGet (cart.map (fun p => if p.1 = s then (p.1, v) else p)) s = v := by
  intro cart
  induction cart with
  | nil => intro h; simp at h
  | cons hd tl ih =>
    intro h
    by_cases hk : hd.1 = s
    · simp only [List.map_cons, if_pos hk, cartGet]
      rw [List.find?_cons_of_pos]
      exact decide_eq_true hk
    · simp only [List.map_cons, if_neg hk]
      simp only [cartGet] at ih ⊢
      rw [List.find?_cons_of_neg]
      · apply ih
        simp only [List.any_cons, Bool.or_eq_true, decide_eq_true_eq] at h
        rcases h with h | h
        · exact absurd h hk
        · exact h
      · simpa using hk

theorem cartGet_append_new (s : String) (v : Int) :
    ∀ cart : Cart, cart.any (fun p => p.1 = s) = false →
      cartGet (cart ++ [(s, v)]) s = v := by
  intro cart
  induction cart with
  | nil =>
    intro _
    simp only [List.nil_append, cartGet]
    rw [List.find?_cons_of_pos]
    exact decide_eq_true rfl
  | cons hd tl ih =>
    intro h
    simp only [List.any_cons, Bool.or_eq_false_iff, decide_eq_false_iff_not] at h
    simp only [List.cons_append]
    simp only [cartGet] at ih ⊢
    rw [List.find?_cons_of_neg]
    · exact ih h.2
    · simpa using h.1

theorem cartGet_cartSet (cart : Cart) (s : String) (v : Int) :
    cartGet (cartSet cart s v) s = v := by
  by_cases h : cart.any (fun p => p.1 = s) = true
  · simp only [cartSet, if_pos h]
    exact cartGet_map_update s v cart h
  · have h2 : cart.any (fun p => p.1 = s) = false := by
      cases hb : cart.any (fun p => p.1 = s)
      · rfl
      · exact absurd hb h
    simp only [cartSet, h2, Bool.false_eq_true, if_false]
    exact cartGet_append_new s v cart h2

theorem resolveItems_eq_filterMap (catalog : List Product) :
    ∀ cart : Cart, resolveItems catalog cart =
      cart.filterMap (fun e => (findInStock catalog e.1).map
        (fun p => { product := p, quantity := e.2, subtotal := p.price * e.2 })) := by
  intro cart
  induction cart with
  | nil => rfl
  | cons hd tl ih =>
    obtain ⟨s, q⟩ := hd
    cases hfs : findInStock catalog s with
    | none => simp [resolveItems, List.filterMap_cons, hfs, ih]
    | some p => simp [resolveItems, List.filterMap_cons, hfs, ih]

theorem cartTotal_eq_sum (catalog : List Product) :
    ∀ cart : Cart,
      cartTotal catalog cart = ((resolveItems catalog cart).map (fun it => it.subtotal)).sum := by
  intro cart
  induction cart with
  | nil => rfl
  | cons hd tl ih =>
    obtain ⟨s, q⟩ := hd
    cases hfs : findInStock catalog s with
    | none => simp [cartTotal, resolveItems, hfs, ih]
    | some p => simp [cartTotal, resolveItems, hfs, ih]

theorem resolveItems_in_stock (catalog : List Product) :
    ∀ cart : Cart, ∀ it ∈ resolveItems catalog cart, it.product.in_stock = true := by
  intro cart
  induction cart with
  | nil => intro it hit; simp [resolveItems] at hit
  | cons hd tl ih =>
    obtain ⟨s, q⟩ := hd
    intro it hit
    cases hfs : findInStock catalog s with
    | none =>
      simp only [resolveItems, hfs] at hit
      exact ih it hit
    | some p =>
      simp only [resolveItems, hfs] at hit
      rcases List.mem_cons.mp hit with h | h
      · subst h
        have hp := List.find?_some hfs
        simp only [Bool.and_eq_true, decide_eq_true_eq] at hp
        exact hp.2
      · exact ih it h

/-! ## Claim theorems -/

/-- C1 counterexample: a booking submitted through the general booking form
with `event_slug = "harvest-fest"` requesting 3 tickets while only 2 are
available is NOT rejected: it reports success, attaches no validation
error, and the booking row is persisted — the Availability Guard does not
apply to this entry point. -/
theorem bookingView_persists_over_capacity :
    (3 : Int) > available_tickets [confirmedBooking8] harvestFest ∧
    (booking_post [harvestFest] [confirmedBooking8] janeForm3 (some "harvest-fest")).success
      = true ∧
    (booking_post [harvestFest] [confirmedBooking8] janeForm3 (some "harvest-fest")).ticketsError
      = none ∧
    (booking_post [harvestFest] [confirmedBooking8] janeForm3 (some "harvest-fest")).bookings
      = [confirmedBooking8, mkBooking janeForm3 (some harvestFest.pk)] := by
  refine ⟨by decide, rfl, rfl, rfl⟩

/-- C1 (amended): the Availability Guard runs only on the event-detail entry
point. A booking posted through the general booking form with a non-empty
`event_slug` gets the event reference attached, but is persisted with no
availability check even when the requested tickets exceed the event's
available count — while the same submission through `event_detail` is
rejected and not persisted. -/
theorem availability_guard_only_event_detail
    (events : List Event) (bookings : List Booking) (f : BookingFormData)
    (slug : String) (e : Event)
    (hslug : slug ≠ "")
    (hfind : events.find? (fun ev => ev.slug = slug) = some e)
    (hover : (f.tickets : Int) > available_tickets bookings e) :
    (booking_post events bookings f (some slug)).bookings =
      bookings ++ [mkBooking f (some e.pk)] ∧
    (booking_post events bookings f (some slug)).ticketsError = none ∧
    (booking_post events bookings f (some slug)).success = true ∧
    (event_detail_post bookings e f).bookings = bookings ∧
    (event_detail_post bookings e f).success = false := by
  refine ⟨by simp [booking_post, hslug, hfind], rfl, rfl,
    by simp [event_detail_post, hover], by simp [event_detail_post, hover]⟩

/-- C1 witness: the amended statement at the Harvest Fest fixture. -/
theorem availability_guard_only_event_detail_witness :
    (booking_post [harvestFest] [confirmedBooking8] janeForm3 (some "harvest-fest")).bookings =
      [confirmedBooking8] ++ [mkBooking janeForm3 (some harvestFest.pk)] ∧
    (event_detail_post [confirmedBooking8] harvestFest janeForm3).success = false :=
  ⟨(availability_guard_only_event_detail [harvestFest] [confirmedBooking8] janeForm3
      "harvest-fest" harvestFest (by decide) (by decide) (by decide)).1,
   (availability_guard_only_event_detail [harvestFest] [confirmedBooking8] janeForm3
      "harvest-fest" harvestFest (by decide) (by decide) (by decide)).2.2.2.2⟩

/-- C2: on the event-detail page, a request for more tickets than
`available_tickets` is rejected with the exact-count validation error
"Only N tickets are available.", nothing is persisted and `tickets_sold`
is unchanged; otherwise the booking is persisted (as `pending`, so it
still does not change `tickets_sold`). -/
theorem event_detail_availability_guard
    (bookings : List Booking) (e : Event) (f : BookingFormData) :
    ((f.tickets : Int) > available_tickets bookings e →
      (event_detail_post bookings e f).bookings = bookings ∧
      (event_detail_post bookings e f).ticketsError =
        some ("Only " ++ toString (available_tickets bookings e) ++ " tickets are available.") ∧
      (event_detail_post bookings e f).success = false ∧
      tickets_sold (event_detail_post bookings e f).bookings e = tickets_sold bookings e) ∧
    (¬ (f.tickets : Int) > available_tickets bookings e →
      (event_detail_post bookings e f).bookings = bookings ++ [mkBooking f (some e.pk)] ∧
      (event_detail_post bookings e f).success = true ∧
      tickets_sold (event_detail_post bookings e f).bookings e = tickets_sold bookings e) := by
  constructor
  · intro h
    refine ⟨by simp [event_detail_post, h], by simp [event_detail_post, h],
      by simp [event_detail_post, h], by simp [event_detail_post, h]⟩
  · intro h
    refine ⟨by simp [event_detail_post, h], by simp [event_detail_post, h], ?_⟩
    simp only [event_detail_post, if_neg h]
    simp [tickets_sold, List.filter_append, mkBooking]

/-- C2 witness: Harvest Fest, capacity 10, one confirmed booking of 8
tickets; a request for 3 is rejected with "Only 2 tickets are available."
and no row is created. -/
theorem event_detail_availability_guard_witness :
    (event_detail_post [confirmedBooking8] harvestFest janeForm3).ticketsError =
      some "Only 2 tickets are available." ∧
    (event_detail_post [confirmedBooking8] harvestFest janeForm3).bookings =
      [confirmedBooking8] := by
  have h := (event_detail_availability_guard [confirmedBooking8] harvestFest janeForm3).1
    (by decide)
  exact ⟨h.2.1.trans (by decide), h.1⟩

/-- C3: checkout is atomic. On POST with a non-empty resolved item list and
a valid `OrderForm`, exactly one `Order` per resolved item is created —
carrying that item's product and quantity and the shared buyer data, with
status `pending` — and in the same step the session cart becomes the empty
mapping. When the resolved list is empty, or the form is invalid, zero
orders are created and the cart is left exactly as it was. -/
theorem checkout_atomic (catalog : List Product) (cart : Cart) (f : OrderFormData) :
    (resolveItems catalog cart ≠ [] →
      (cart_view catalog cart true (some f)).orders =
        (resolveItems catalog cart).map (fun it =>
          { product := it.product, name := f.name, email := f.email,
            quantity := it.quantity, notes := f.notes, status := OrderStatus.pending }) ∧
      (cart_view catalog cart true (some f)).orders.length =
        (resolveItems catalog cart).length ∧
      (cart_view catalog cart true (some f)).cart = [] ∧
      (cart_view catalog cart true (some f)).success = true) ∧
    (resolveItems catalog cart = [] →
      (cart_view catalog cart true (some f)).orders = [] ∧
      (cart_view catalog cart true (some f)).cart = cart ∧
      (cart_view catalog cart true (some f)).success = false) ∧
    ((cart_view catalog cart true none).orders = [] ∧
      (cart_view catalog cart true none).cart = cart) := by
  refine ⟨?_, ?_, ?_⟩
  · intro hne
    cases hitems : resolveItems catalog cart with
    | nil => exact absurd hitems hne
    | cons i is =>
      refine ⟨?_, ?_, ?_, ?_⟩ <;> simp [cart_view, hitems]
  · intro hitems
    refine ⟨?_, ?_, ?_⟩ <;> simp [cart_view, hitems]
  · cases hitems : resolveItems catalog cart with
    | nil => exact ⟨by simp [cart_view, hitems], by simp [cart_view, hitems]⟩
    | cons i is => exact ⟨by simp [cart_view, hitems], by simp [cart_view, hitems]⟩

/-- C3 witness: a 2-item cart checks out into exactly 2 orders and an empty
cart; a cart whose only entry cannot be resolved (out-of-stock product)
produces 0 orders and is left unchanged. -/
theorem checkout_atomic_witness :
    (cart_view exCatalog [("fresh-eggs", 2), ("tomato-plant", 1)] true
        (some janeBuyer)).orders.length = 2 ∧
    (cart_view exCatalog [("fresh-eggs", 2), ("tomato-plant", 1)] true
        (some janeBuyer)).cart = [] ∧
    (cart_view exCatalog [("chicks", 2)] true (some janeBuyer)).orders = [] ∧
    (cart_view exCatalog [("chicks", 2)] true (some janeBuyer)).cart = [("chicks", 2)] := by
  have h1 := (checkout_atomic exCatalog [("fresh-eggs", 2), ("tomato-plant", 1)] janeBuyer).1
    (by decide)
  have h2 := (checkout_atomic exCatalog [("chicks", 2)] janeBuyer).2.1 (by decide)
  exact ⟨by rw [h1.2.1]; decide, h1.2.2.1, h2.1, h2.2.1⟩

/-- C4: resolving the cart produces one `{product, quantity, subtotal}`
entry for exactly those cart slugs that resolve to an in-stock product
(`filterMap` over the cart with the in-stock lookup), the rendered total is
the sum of the resolved subtotals (dropped entries contribute nothing), and
a non-POST `cart_view` leaves the session cart mapping unchanged while
rendering exactly the resolved items. -/
theorem resolve_cart_spec (catalog : List Product) (cart : Cart) :
    resolveItems catalog cart =
      cart.filterMap (fun e => (findInStock catalog e.1).map
        (fun p => { product := p, quantity := e.2, subtotal := p.price * e.2 })) ∧
    cartTotal catalog cart =
      ((resolveItems catalog cart).map (fun it => it.subtotal)).sum ∧
    (cart_view catalog cart false none).cart = cart ∧
    (cart_view catalog cart false none).items = resolveItems catalog cart ∧
    (cart_view catalog cart false none).orders = [] :=
  ⟨resolveItems_eq_filterMap catalog cart, cartTotal_eq_sum catalog cart, rfl, rfl, rfl⟩

/-- C5 counterexample: posting the string "0" as quantity — not a positive
integer — is parsed by `int()` without error and added as-is, producing a
cart entry with quantity 0; the claimed default to 1 does not happen. -/
theorem cart_add_zero_quantity_cex :
    cart_add exCatalog [] "fresh-eggs" (some "0") = some [("fresh-eggs", 0)] ∧
    parsedQty (some "0") ≠ 1 ∧
    cartGet [("fresh-eggs", 0)] "fresh-eggs" = 0 := by
  decide

/-- C5 (amended): the quantity defaults to 1 only when the field is missing
or fails integer parsing (and the request never fails on the quantity); a
string parsing to a non-positive integer such as "0" or "-2" is added
as-is, so cart entries with quantity ≤ 0 can occur. -/
theorem cart_add_quantity_fallback (catalog : List Product) (cart : Cart)
    (slug : String) (q : Option String) (p : Product)
    (hfind : findProduct catalog slug = some p) :
    cart_add catalog cart slug q =
      some (cartSet cart slug (cartGet cart slug + parsedQty q)) ∧
    parsedQty none = 1 ∧
    (∀ s, q = some s → pyInt s = none → parsedQty q = 1) ∧
    (∀ s n, q = some s → pyInt s = some n → parsedQty q = n) ∧
    cartGet (cartSet cart slug (cartGet cart slug + parsedQty q)) slug =
      cartGet cart slug + parsedQty q := by
  refine ⟨by simp [cart_add, hfind], rfl, ?_, ?_, cartGet_cartSet _ _ _⟩
  · intro s hq hnone
    subst hq
    simp [parsedQty, hnone]
  · intro s n hq hsome
    subst hq
    simp [parsedQty, hsome]

/-- C5 witness: the amended statement at an unparsable quantity string,
which falls back to adding 1. -/
theorem cart_add_quantity_fallback_witness :
    cart_add exCatalog [] "fresh-eggs" (some "abc") = some [("fresh-eggs", 1)] := by
  have h := cart_add_quantity_fallback exCatalog [] "fresh-eggs" (some "abc") eggsProduct
    (by decide)
  rw [h.1]
  decide

/-- C6: adding an already-present slug increments the stored quantity: two
adds of m and n to the same slug leave the cart mapping that slug to its
previous value plus m plus n. -/
theorem cart_add_increments (catalog : List Product) (c : Cart) (s : String)
    (q1 q2 : String) (m n : Int) (p : Product)
    (hfind : findProduct catalog s = some p)
    (hm : pyInt q1 = some m) (hn : pyInt q2 = some n)
    (_hmpos : 0 < m) (_hnpos : 0 < n) :
    ∃ c1 c2, cart_add catalog c s (some q1) = some c1 ∧
      cart_add catalog c1 s (some q2) = some c2 ∧
      cartGet c1 s = cartGet c s + m ∧
      cartGet c2 s = cartGet c s + m + n := by
  have hpq1 : parsedQty (some q1) = m := by simp [parsedQty, hm]
  have hpq2 : parsedQty (some q2) = n := by simp [parsedQty, hn]
  refine ⟨cartSet c s (cartGet c s + m),
    cartSet (cartSet c s (cartGet c s + m)) s (cartGet c s + m + n), ?_, ?_, ?_, ?_⟩
  · simp [cart_add, hfind, hpq1]
  · simp [cart_add, hfind, hpq2, cartGet_cartSet, add_assoc]
  · exact cartGet_cartSet c s (cartGet c s + m)
  · exact cartGet_cartSet _ s _

/-- C6 witness: `add(add(emptyCart, "fresh-eggs", 2), "fresh-eggs", 3)`
yields quantity 5. -/
theorem cart_add_increments_witness :
    ∃ c1 c2, cart_add exCatalog [] "fresh-eggs" (some "2") = some c1 ∧
      cart_add exCatalog c1 "fresh-eggs" (some "3") = some c2 ∧
      cartGet c1 "fresh-eggs" = 2 ∧ cartGet c2 "fresh-eggs" = 5 := by
  obtain ⟨c1, c2, h1, h2, h3, h4⟩ := cart_add_increments exCatalog [] "fresh-eggs" "2" "3"
    2 3 eggsProduct (by decide) (by decide) (by decide) (by decide) (by decide)
  exact ⟨c1, c2, h1, h2, by rw [h3]; decide, by rw [h4]; decide⟩

/-- C7: the pre_save slug assignment for Product, Service and Event leaves a
non-blank slug untouched; on a blank slug it assigns a slug that no other
record of the type holds, namely the first candidate in the sequence
`slugify(name), slugify(name)-1, slugify(name)-2, …` not held by a
different record (the check excludes the instance's own pk); and when the
base slug is held by no record other than the instance itself — in
particular when re-saving an unrenamed record — the base slug is kept with
no suffix. -/
theorem slug_assignment_spec (table : List SlugRecord) (pk : Option Nat)
    (slug name : String) :
    (slug ≠ "" → set_product_slug table pk slug name = slug ∧
      set_event_slug table pk slug name = slug ∧
      set_service_slug table pk slug name = slug) ∧
    (slug = "" →
      slugTaken table pk (set_product_slug table pk slug name) = false ∧
      (∃ i, set_product_slug table pk slug name = nthSlug (slugify name) i ∧
        ∀ j < i, slugTaken table pk (nthSlug (slugify name) j) = true) ∧
      set_event_slug table pk slug name = set_product_slug table pk slug name ∧
      set_service_slug table pk slug name = set_product_slug table pk slug name) ∧
    ((∀ r ∈ table, r.slug = slugify name → some r.pk = pk) →
      set_product_slug table pk "" name = slugify name) := by
  refine ⟨?_, ?_, ?_⟩
  · intro h
    exact ⟨by simp [set_product_slug, h], by simp [set_event_slug, h],
      by simp [set_service_slug, h]⟩
  · intro h
    subst h
    obtain ⟨h1, i, h2, h3⟩ := uniqueSlugify_spec table pk name
    have hps : set_product_slug table pk "" name = uniqueSlugify table pk name := by
      simp [set_product_slug]
    exact ⟨by rw [hps]; exact h1, ⟨i, by rw [hps]; exact h2, h3⟩, rfl, rfl⟩
  · intro h
    have hfree : slugTaken table pk (slugify name) = false := by
      cases hb : slugTaken table pk (slugify name)
      · rfl
      · exfalso
        simp only [slugTaken, List.any_eq_true, Bool.and_eq_true, decide_eq_true_eq] at hb
        obtain ⟨r, hr, hs, hpk⟩ := hb
        exact hpk (h r hr hs)
    obtain ⟨h1, i, h2, h3⟩ := uniqueSlugify_spec table pk name
    have hi0 : i = 0 := by
      by_contra hi
      have htaken := h3 0 (Nat.pos_of_ne_zero hi)
      rw [show nthSlug (slugify name) 0 = slugify name from rfl] at htaken
      rw [htaken] at hfree
      exact absurd hfree (by decide)
    have hps : set_product_slug table pk "" name = uniqueSlugify table pk name := by
      simp [set_product_slug]
    rw [hps, h2, hi0]
    rfl

/-- C7 witness: at the one-record table holding "fresh-eggs" under pk 1, a
non-blank slug is kept verbatim, and re-slugifying the same record from the
name "Fresh Eggs" returns "fresh-eggs" with no suffix. -/
theorem slug_assignment_spec_witness :
    set_product_slug [⟨1, "fresh-eggs"⟩] (some 1) "keep-me" "Fresh Eggs" = "keep-me" ∧
    set_product_slug [⟨1, "fresh-eggs"⟩] (some 1) "" "Fresh Eggs" = "fresh-eggs" := by
  have h1 := (slug_assignment_spec [⟨1, "fresh-eggs"⟩] (some 1) "keep-me" "Fresh Eggs").1
    (by decide)
  have h2 := (slug_assignment_spec [⟨1, "fresh-eggs"⟩] (some 1) "" "Fresh Eggs").2.2
    (by decide)
  exact ⟨h1.1, by rw [h2]; decide⟩

/-- C8 counterexample: a product whose name slugifies to the empty string
(here "!!!") is assigned the empty slug through the slug-assignment path —
the claimed non-emptiness of product slugs fails. -/
theorem product_slug_empty_cex :
    set_product_slug [] none "" "!!!" = "" ∧
    (set_product_slug [] none "" "!!!").length = 0 := by
  decide

/-- C8 (amended): a slug assigned through the product slug path is never
held by a different product (uniqueness, with colliding base names pushed to
suffixes `-1`, `-2`, …, demonstrated concretely) and contains only URL-safe
characters (word characters or hyphens) — but it can be EMPTY when the
slugification of the name is empty, so non-emptiness does not hold. -/
theorem product_slug_unique_urlsafe (table : List SlugRecord) (pk : Option Nat)
    (name : String) :
    slugTaken table pk (set_product_slug table pk "" name) = false ∧
    (∀ r ∈ table, some r.pk ≠ pk → r.slug ≠ set_product_slug table pk "" name) ∧
    (∀ c ∈ (set_product_slug table pk "" name).data, isWordChar c = true ∨ c = '-') ∧
    set_product_slug [⟨1, "fresh-eggs"⟩, ⟨2, "fresh-eggs-1"⟩] none "" "Fresh Eggs" =
      "fresh-eggs-2" := by
  have hps : set_product_slug table pk "" name = uniqueSlugify table pk name := by
    simp [set_product_slug]
  obtain ⟨h1, _, _, _⟩ := uniqueSlugify_spec table pk name
  refine ⟨by rw [hps]; exact h1, ?_, ?_, by decide⟩
  · intro r hr hpk heq
    rw [hps] at heq
    have : slugTaken table pk (uniqueSlugify table pk name) = true := by
      simp only [slugTaken, List.any_eq_true]
      exact ⟨r, hr, by simp [heq, hpk]⟩
    rw [this] at h1
    exact absurd h1 (by decide)
  · intro c hc
    rw [hps] at hc
    exact nthSlug_chars name _ c hc

/-- C8 witness: concrete instances of the amended statement — the slug
"fresh-eggs-1" of a different record differs from the newly assigned slug,
and a character of the assigned slug is URL-safe. -/
theorem product_slug_unique_urlsafe_witness :
    ("fresh-eggs" : String) ≠ set_product_slug [⟨1, "fresh-eggs"⟩] none "" "Fresh Eggs" ∧
    (isWordChar 'f' = true ∨ 'f' = '-') := by
  have h := product_slug_unique_urlsafe [⟨1, "fresh-eggs"⟩] none "Fresh Eggs"
  exact ⟨h.2.1 ⟨1, "fresh-eggs"⟩ (by decide) (by decide),
    h.2.2.1 'f' (by decide)⟩

/-- C9 counterexample: resubmitting an already-subscribed valid email does
NOT report success — `NewsletterSubscriber.email` is `unique=True`, so the
`ModelForm` unique-email validation fails `is_valid()`, the view body is
skipped and `success` stays `False` (the visitor sees the inline
"already exists" validation error); only the no-second-row half of the
claim holds. -/
theorem newsletter_duplicate_not_success_cex :
    newsletter_subscribe ["a@example.com"] (some "a@example.com") =
      (["a@example.com"], false) ∧
    (newsletter_subscribe ["a@example.com"] (some "a@example.com")).2 ≠ true := by
  constructor
  · simp [newsletter_subscribe]
  · simp [newsletter_subscribe]

/-- C9 (amended): newsletter signup never creates a duplicate row — a
resubmitted existing email fails the form's unique-email validation, so
nothing is created and the view reports `success = False` with a
validation error, while a fresh valid email is inserted with success
reported; hence two signups of the same email from a state without it
still leave exactly one subscriber row. -/
theorem newsletter_unique_guard (subs : List String) (email : String) :
    (email ∈ subs → newsletter_subscribe subs (some email) = (subs, false)) ∧
    (email ∉ subs → newsletter_subscribe subs (some email) = (subs ++ [email], true)) ∧
    ((newsletter_subscribe (newsletter_subscribe subs (some email)).1 (some email)).1 =
      (newsletter_subscribe subs (some email)).1) ∧
    (subs.count email = 0 →
      (newsletter_subscribe (newsletter_subscribe subs (some email)).1
        (some email)).1.count email = 1) := by
  refine ⟨?_, ?_, ?_, ?_⟩
  · intro h
    simp [newsletter_subscribe, h]
  · intro h
    simp [newsletter_subscribe, h]
  · by_cases hm : email ∈ subs
    · simp [newsletter_subscribe, hm]
    · have hm2 : email ∈ subs ++ [email] := by simp
      simp [newsletter_subscribe, hm, hm2]
  · intro h
    have hmem : email ∉ subs := by
      intro hm
      rw [List.count_eq_zero] at h
      exact h hm
    have hm2 : email ∈ subs ++ [email] := by simp
    simp [newsletter_subscribe, hmem, hm2, List.count_append,
      List.count_eq_zero.mpr hmem]

/-- C9 witness: from an empty table, "a@example.com" is inserted with
success; submitting it a second time leaves exactly one row. -/
theorem newsletter_unique_guard_witness :
    newsletter_subscribe [] (some "a@example.com") = (["a@example.com"], true) ∧
    (newsletter_subscribe (newsletter_subscribe [] (some "a@example.com")).1
      (some "a@example.com")).1.count "a@example.com" = 1 :=
  ⟨(newsletter_unique_guard [] "a@example.com").2.1 (by decide),
   (newsletter_unique_guard [] "a@example.com").2.2.2 (by decide)⟩

/-- C10: add-to-cart 404s (mutating nothing) exactly when no Product row
has the slug; when a product exists the add succeeds regardless of its
`in_stock` flag — the existence check ignores stock — and out-of-stock
products are only dropped later, at resolve time, where every resolved
item's product is in stock. -/
theorem cart_add_existence_check (catalog : List Product) (cart : Cart) (slug : String)
    (q : Option String) :
    (findProduct catalog slug = none → cart_add catalog cart slug q = none) ∧
    (∀ p, findProduct catalog slug = some p →
      cart_add catalog cart slug q =
        some (cartSet cart slug (cartGet cart slug + parsedQty q))) ∧
    (∀ it ∈ resolveItems catalog cart, it.product.in_stock = true) := by
  refine ⟨?_, ?_, resolveItems_in_stock catalog cart⟩
  · intro h
    simp [cart_add, h]
  · intro p h
    simp [cart_add, h]

/-- C10 witness: an unknown slug 404s; the out-of-stock "chicks" product is
still addable; and a cart holding only "chicks" resolves to no items. -/
theorem cart_add_existence_check_witness :
    cart_add exCatalog [] "ghost" none = none ∧
    cart_add exCatalog [] "chicks" none = some [("chicks", 1)] ∧
    resolveItems exCatalog [("chicks", 1)] = [] := by
  have h1 := cart_add_existence_check exCatalog [] "ghost" none
  have h2 := cart_add_existence_check exCatalog [] "chicks" none
  refine ⟨h1.1 (by decide), ?_, by decide⟩
  rw [h2.2.1 chicksProduct (by decide)]
  decide

end JamMission
